import Mathlib

/-!
# Geocoding migration pipeline (`src/index.js`)

A shallow embedding of the script that pages through a source collection,
geocodes every record with bounded retry, and inserts the enriched records of
each page into a target collection.

Modelling conventions.

* The outside world (the document store and the geocoding service) is an
  `Env`: the source collection is a finite list, and every call that can fail
  consults an oracle of the environment.  The geocoding service answers as a
  function of the requests it has already received and of the current request.
* Every externally visible action is recorded, in order of occurrence, in a
  trace of `Event`s.
* `console.*` output, the wait of `delayMs = 300` milliseconds before each attempt
  and the `timeout` option handed to `fetch` are not modelled: no duration is; an
  answer of the service is an answer however long it took, and a rejection of
  `fetch` is a rejection whatever caused it.
* `String.prototype.toLowerCase` is a function the environment provides.
* `while (hasNext)` is embedded with a fuel argument; `none` means the fuel ran
  out, and termination is proved separately.
-/

namespace GeoMigration

/-! ## Data model -/

/-- A JavaScript number, identified by an integer code. The script only copies
latitudes and longitudes from the response into the target document and never
computes with them, so no arithmetic on these values is modelled. -/
abbrev JsNumber := Int

/-- A document of the source collection, restricted to the fields the script reads.
`country = none` stands for a document on which `country.toLowerCase()` cannot be
called (field absent, `null`, or not a string). -/
structure SourceRecord where
  city : String
  state : String
  zipcode : String
  zone : String
  fa_station : String
  country : Option String
  deriving DecidableEq, Repr

/-- The object returned by `getPlaceDetails` on success (line 114). -/
structure PlaceDetails where
  lat : JsNumber
  lng : JsNumber
  place_id : String
  deriving DecidableEq, Repr

/-- The `location` sub-document written by lines 57-60. -/
structure GeoPoint where
  type : String
  coordinates : List JsNumber
  deriving DecidableEq, Repr

/-- The document pushed onto `recordList` (lines 49-61). `country` is copied as read. -/
structure TargetRecord where
  city : String
  state : String
  zipcode : String
  zone : String
  fa_station : String
  country : Option String
  place_id : String
  location : GeoPoint
  deriving DecidableEq, Repr

deriving instance DecidableEq for Except

/-- Values that can be thrown. -/
inductive JsError where
  /-- A property access or call on `undefined` (e.g. `country.toLowerCase()`). -/
  | typeError
  /-- The error built on line 98 from a non-ok HTTP status. -/
  | httpError (status : Nat)
  /-- The error built on line 107. -/
  | noResults
  /-- The promise returned by `fetch` rejected. -/
  | fetchRejected
  /-- The promise returned by `placeResponse.json()` rejected. -/
  | jsonRejected
  /-- A rejection of a store call (`find(...).toArray()` or `insertMany`). -/
  | storeError
  deriving DecidableEq, Repr

/-! ## The geocoding service -/

/-- The `geometry.location` object of a result. -/
structure LatLng where
  lat : JsNumber
  lng : JsNumber
  deriving DecidableEq, Repr

/-- One element of the `results` array. `location = none` stands for an element
whose `geometry` or `geometry.location` is missing, so that line 112 throws. -/
structure GeoResult where
  location : Option LatLng
  place_id : String
  deriving DecidableEq, Repr

/-- What `placeResponse.json()` yields. -/
inductive Body where
  /-- The promise rejects (the body is not JSON). -/
  | invalid
  /-- A JSON object; `results = none` stands for a missing or falsy `results`. -/
  | json (results : Option (List GeoResult))
  deriving DecidableEq, Repr

/-- What one `fetch(apiUrl, ...)` yields. -/
inductive FetchOutcome where
  /-- The promise rejects (network error, aborted request). -/
  | rejected
  /-- A response with its `ok` flag, its `status` and its body. -/
  | response (ok : Bool) (status : Nat) (body : Body)
  deriving DecidableEq, Repr

/-! ## Events and environment -/

/-- Externally visible actions of a run. -/
inductive Event where
  /-- Creating and connecting the client, and whether that succeeded (lines 9-10). -/
  | connect (ok : Bool)
  /-- One `find().skip(skip).limit(limit).toArray()`; `returned` is the number of
  documents it delivered, `none` when the call rejected (lines 29-33). -/
  | find (skip limit : Nat) (returned : Option Nat)
  /-- One `fetch(apiUrl, ...)` (line 93). -/
  | request (url : String)
  /-- One `insertMany(docs)` and whether it succeeded (line 137). -/
  | insertMany (docs : List TargetRecord) (ok : Bool)
  /-- The call `client.close()` (line 152). -/
  | close
  /-- The call `process.exit(code)` (lines 13 and 154). -/
  | exit (code : Nat)
  deriving DecidableEq, Repr

/-- The world the script runs in. -/
structure Env where
  /-- Whether creating or connecting the client throws. -/
  connectFails : Bool
  /-- The documents of the source collection, in the order `find()` delivers them. -/
  source : List SourceRecord
  /-- Whether the next page read rejects, given everything that happened so far. -/
  findFails : List Event → Bool
  /-- Whether the next `insertMany` rejects, given everything that happened so far. -/
  insertFails : List Event → Bool
  /-- The answer of the geocoding service to a request for `url`, given the URLs
  it was asked for before. -/
  geocode : List String → String → FetchOutcome
  /-- The text of `process.env.GOOGLE_MAPS_API_KEY` as interpolated on line 86. -/
  apiKey : String
  /-- The method `String.prototype.toLowerCase` of the runtime, called on the
  country on line 85. -/
  toLowerCase : String → String

/-- The module-level variables of lines 16-19 together with the trace so far. -/
structure State where
  skip : Nat
  batch : Nat
  count : Nat
  hasNext : Bool
  trace : List Event
  deriving DecidableEq, Repr

/-! ## Projections of a trace -/

/-- The URLs requested from the geocoding service, in order. -/
def requestsOf : List Event → List String
  | [] => []
  | .request url :: rest => url :: requestsOf rest
  | _ :: rest => requestsOf rest

/-- The `(skip, limit)` pairs of the page reads, in order. -/
def findsOf : List Event → List (Nat × Nat)
  | [] => []
  | .find skip limit _ :: rest => (skip, limit) :: findsOf rest
  | _ :: rest => findsOf rest

/-- The batches handed to `insertMany`, in order. -/
def insertsOf : List Event → List (List TargetRecord)
  | [] => []
  | .insertMany docs _ :: rest => docs :: insertsOf rest
  | _ :: rest => insertsOf rest

/-! ## `getPlaceDetails` (lines 81-128) -/

/-- The constant `maxRetries` of line 82. -/
def maxRetries : Nat := 3

/-- The template literal of lines 85-87. -/
def apiUrl (env : Env) (city country : String) : String :=
  "https://maps.googleapis.com/maps/api/geocode/json?address=" ++ city ++
    "&components=country:" ++ env.toLowerCase country ++ "&key=" ++ env.apiKey

/-- Lines 97-114: what the body of the `try` block makes of the outcome of `fetch`.
An error is what the block throws into the `catch` of line 115. -/
def attemptBody : FetchOutcome → Except JsError PlaceDetails
  | .rejected => .error .fetchRejected
  | .response ok status body =>
    if !ok then .error (.httpError status)
    else
      match body with
      | .invalid => .error .jsonRejected
      | .json none => .error .noResults
      | .json (some []) => .error .noResults
      | .json (some (first :: _)) =>
        match first.location with
        | none => .error .typeError
        | some loc => .ok { lat := loc.lat, lng := loc.lng, place_id := first.place_id }

/-- The `for` loop of lines 89-127. `hist` holds the URLs the service received
before this call and `sent` those requested by this call so far. `remaining` is
`maxRetries + 1 - attempt`, the number of values `attempt` can still take; when it
is `0` the loop condition fails and the function returns `undefined` (`ok none`). -/
def retryLoop (env : Env) (url : String) (hist : List String) :
    (remaining attempt : Nat) → (sent : List String) →
      Except JsError (Option PlaceDetails) × List String
  | 0, _, sent => (.ok none, sent)
  | remaining + 1, attempt, sent =>
    match attemptBody (env.geocode (hist ++ sent) url) with
    | .ok details => (.ok (some details), sent ++ [url])
    | .error e =>
      if attempt = maxRetries then (.error e, sent ++ [url])
      else retryLoop env url hist remaining (attempt + 1) (sent ++ [url])

/-- The function `getPlaceDetails`: its result, and the URLs it requested in order.
Building `apiUrl` throws before the loop when `country.toLowerCase()` cannot be
called. -/
def getPlaceDetails (env : Env) (data : SourceRecord) (hist : List String) :
    Except JsError (Option PlaceDetails) × List String :=
  match data.country with
  | none => (.error .typeError, [])
  | some country => retryLoop env (apiUrl env data.city country) hist maxRetries 1 []

/-! ## `uploadDataToTargetCollection` (lines 130-143) -/

/-- The function `uploadDataToTargetCollection`: one `insertMany`, whose rejection
is rethrown. -/
def uploadDataToTargetCollection (env : Env) (data : List TargetRecord)
    (trace : List Event) : Except JsError Unit × List Event :=
  if env.insertFails trace then (.error .storeError, trace ++ [.insertMany data false])
  else (.ok (), trace ++ [.insertMany data true])

/-! ## `batchSourceCollectionFetcher` (lines 21-79) -/

/-- The object literal of lines 49-61. -/
def toTargetRecord (data : SourceRecord) (details : PlaceDetails) : TargetRecord :=
  { city := data.city ++ ", " ++ data.state
    state := data.state
    zipcode := data.zipcode
    zone := data.zone
    fa_station := data.fa_station
    country := data.country
    place_id := details.place_id
    location := { type := "Point", coordinates := [details.lng, details.lat] } }

/-- The cursor `find().skip(skip).limit(limit)` on an unchanging collection.
A limit of `0` means no limit. -/
def fetchPage (source : List SourceRecord) (skip limit : Nat) : List SourceRecord :=
  if limit = 0 then source.drop skip else (source.drop skip).take limit

/-- The `for ... of` loop of lines 43-67 over the records of a page that are still
to be processed. A throw of `getPlaceDetails` is caught by line 64 and leaves
`recordList` and `count` as they are. -/
def processPage (env : Env) :
    List SourceRecord → List TargetRecord → State → List TargetRecord × State
  | [], recordList, st => (recordList, st)
  | data :: rest, recordList, st =>
    match getPlaceDetails env data (requestsOf st.trace) with
    | (.ok placeDetails, sent) =>
      let recordList' :=
        match placeDetails with
        | some details => recordList ++ [toTargetRecord data details]
        | none => recordList
      processPage env rest recordList'
        { st with count := st.count + 1, trace := st.trace ++ sent.map Event.request }
    | (.error _, sent) =>
      processPage env rest recordList
        { st with trace := st.trace ++ sent.map Event.request }

/-- How one pass through the body of `while (hasNext)` ends. -/
inductive Step where
  /-- The `break` of line 38. -/
  | done (st : State)
  /-- The end of the body was reached (line 73). -/
  | next (st : State)
  /-- An error left the body. -/
  | throw (e : JsError) (st : State)
  deriving DecidableEq, Repr

/-- The body of `while (hasNext)`, lines 29-73. -/
def iteration (env : Env) (st : State) : Step :=
  if env.findFails st.trace then
    .throw .storeError { st with trace := st.trace ++ [.find st.skip st.batch none] }
  else
    let sourceCollectionDataArray := fetchPage env.source st.skip st.batch
    let st1 : State :=
      { st with
        trace := st.trace ++ [.find st.skip st.batch (some sourceCollectionDataArray.length)] }
    if sourceCollectionDataArray.length = 0 then
      .done { st1 with hasNext := false }
    else
      match processPage env sourceCollectionDataArray [] st1 with
      | (recordList, st2) =>
        if recordList.length > 0 then
          match uploadDataToTargetCollection env recordList st2.trace with
          | (.error e, trace) => .throw e { st2 with trace := trace }
          | (.ok (), trace) => .next { st2 with trace := trace, skip := st2.skip + st2.batch }
        else
          .next { st2 with skip := st2.skip + st2.batch }

/-- The loop `while (hasNext)` of lines 28-74 with a bound on the number of passes;
`none` when the bound is used up. -/
def whileLoop (env : Env) : Nat → State → Option (Except JsError Unit × State)
  | 0, _ => none
  | fuel + 1, st =>
    if st.hasNext then
      match iteration env st with
      | .done st' => some (.ok (), st')
      | .next st' => whileLoop env fuel st'
      | .throw e st' => some (.error e, st')
    else some (.ok (), st)

/-- The function `batchSourceCollectionFetcher`: the loop inside a `try` whose
`catch` rethrows (lines 75-78). -/
def batchSourceCollectionFetcher (env : Env) (fuel : Nat) (st : State) :
    Option (Except JsError Unit × State) :=
  match whileLoop env fuel st with
  | some (.error e, st') => some (.error e, st')
  | other => other

/-! ## Top level (lines 6-19 and 145-155) -/

/-- The values of lines 16-19, once the client is connected. -/
def initialState : State :=
  { skip := 0, batch := 50, count := 1, hasNext := true, trace := [.connect true] }

/-- The whole script: the trace of a run, `none` when the fuel is used up.
`client.close()` is taken not to throw. -/
def main (env : Env) (fuel : Nat) : Option (List Event) :=
  if env.connectFails then some [.connect false, .exit 1]
  else
    match batchSourceCollectionFetcher env fuel initialState with
    | none => none
    | some (.ok (), st) => some (st.trace ++ [.close, .exit 0])
    | some (.error _, st) => some (st.trace ++ [.close, .exit 0])

/-! ## Reference definitions used to state the properties -/

/-- The result of the attempt number `i + 1` of a call of `getPlaceDetails` that
starts after the requests `hist`, when the `i` attempts before it have been made:
what lines 97-114 make of the answer of the service to that request. -/
def attemptOutcome (env : Env) (url : String) (hist : List String) (i : Nat) :
    Except JsError PlaceDetails :=
  attemptBody (env.geocode (hist ++ List.replicate i url) url)

/-- The URLs requested when `getPlaceDetails` is called on each record of a list
in turn, the service having received `hist` before. -/
def requestsFor (env : Env) : List SourceRecord → List String → List String
  | [], _ => []
  | data :: rest, hist =>
    (getPlaceDetails env data hist).2 ++
      requestsFor env rest (hist ++ (getPlaceDetails env data hist).2)

/-- The specification of the migration: go through the records in order, keep
those for which `getPlaceDetails` returns place details, and map each of them
with its place details to the target shape. -/
def enrichAll (env : Env) : List SourceRecord → List String → List TargetRecord
  | [], _ => []
  | data :: rest, hist =>
    match getPlaceDetails env data hist with
    | (.ok (some details), sent) =>
      toTargetRecord data details :: enrichAll env rest (hist ++ sent)
    | (_, sent) => enrichAll env rest (hist ++ sent)

/-- The target record of the specification, written out from its data model: the
city composed as `<city>, <state>`; state, zipcode, zone, fa_station and country
as in the source record; the place identifier of the geocode result; and a
location with type tag `"Point"` and coordinates the pair longitude, latitude. -/
def specTargetRecord (r : SourceRecord) (g : PlaceDetails) : TargetRecord :=
  { city := r.city ++ ", " ++ r.state
    state := r.state
    zipcode := r.zipcode
    zone := r.zone
    fa_station := r.fa_station
    country := r.country
    place_id := g.place_id
    location := { type := "Point", coordinates := [g.lng, g.lat] } }

/-- The records the specification expects in the target collection: the source
records in source order, those kept for which `getPlaceDetails` succeeds, each
mapped with its geocode result to `specTargetRecord`. `hist` holds the requests
the service received before. -/
def specWrittenRecords (env : Env) : List SourceRecord → List String → List TargetRecord
  | [], _ => []
  | r :: rest, hist =>
    match getPlaceDetails env r hist with
    | (.ok (some g), sent) => specTargetRecord r g :: specWrittenRecords env rest (hist ++ sent)
    | (_, sent) => specWrittenRecords env rest (hist ++ sent)

/-- The records the page number `i` (from `0`) of size `n` contributes to the
target collection in a run that started with no request sent. -/
def pageBatch (env : Env) (n i : Nat) : List TargetRecord :=
  enrichAll env (fetchPage env.source (i * n) n) (requestsFor env (env.source.take (i * n)) [])

/-- The events that follow the first rejected `insertMany` of a trace, `none`
when no `insertMany` was rejected. -/
def afterFailedInsert : List Event → Option (List Event)
  | [] => none
  | .insertMany _ false :: rest => some rest
  | _ :: rest => afterFailedInsert rest

/-- The events of the top level (connection, close, exit) in a trace. -/
def lifecycleOf : List Event → List Event
  | [] => []
  | .connect ok :: rest => .connect ok :: lifecycleOf rest
  | .close :: rest => .close :: lifecycleOf rest
  | .exit code :: rest => .exit code :: lifecycleOf rest
  | _ :: rest => lifecycleOf rest

/-- The state in which the loop starts when the page size is `n`. -/
def startState (n : Nat) : State :=
  { initialState with batch := n }

/-- The target records obtained from the page read in state `st`. -/
def pageRecords (env : Env) (st : State) : List TargetRecord :=
  enrichAll env (fetchPage env.source st.skip st.batch) (requestsOf st.trace)

/-- The trace once the page read in state `st` has been fetched and each of its
records has gone through `getPlaceDetails`. -/
def pageTrace (env : Env) (st : State) : List Event :=
  st.trace ++ [.find st.skip st.batch (some (fetchPage env.source st.skip st.batch).length)] ++
    (requestsFor env (fetchPage env.source st.skip st.batch) (requestsOf st.trace)).map
      Event.request

/-- The invariant of `while (hasNext)` at the head of the loop, after `k` pages of
size `n` have been processed in a run that started in `startState n`. -/
structure LoopInv (env : Env) (n k : Nat) (st : State) : Prop where
  batch_eq : st.batch = n
  hasNext_eq : st.hasNext = true
  skip_eq : st.skip = k * n
  nonempty_before : ∀ i, i < k → i * n < env.source.length
  finds_eq : findsOf st.trace = (List.range k).map (fun i => (i * n, n))
  requests_eq : requestsOf st.trace = requestsFor env (env.source.take (k * n)) []
  inserts_eq :
    insertsOf st.trace = ((List.range k).map (pageBatch env n)).filter (fun b => !b.isEmpty)
  written_eq : (insertsOf st.trace).flatten = enrichAll env (env.source.take (k * n)) []
  count_eq : st.count = 1 + (enrichAll env (env.source.take (k * n)) []).length
  no_failed_insert : afterFailedInsert st.trace = none
  lifecycle_eq : lifecycleOf st.trace = [.connect true]

/-! ## Sample environments -/

/-- Lower-casing of the letters `A` to `Z`, every other character unchanged: what
`String.prototype.toLowerCase` does on an ASCII string. The sample environments
use it; their country codes are ASCII. -/
def asciiToLowerCase (s : String) : String :=
  String.mk (s.data.map Char.toLower)

/-- A source record with all fields present. -/
def sampleRecord : SourceRecord :=
  { city := "Austin", state := "TX", zipcode := "78701", zone := "5", fa_station := "AUS",
    country := some "US" }

/-- A source record without a `country` field. -/
def recordWithoutCountry : SourceRecord :=
  { city := "Nowhere", state := "ZZ", zipcode := "00000", zone := "1", fa_station := "NOW",
    country := none }

/-- A successful answer of the geocoding service with one result. -/
def sampleResponse : FetchOutcome :=
  .response true 200 (.json (some [{ location := some { lat := 30, lng := -97 },
                                     place_id := "place-1" }]))

/-- The place details carried by `sampleResponse`. -/
def sampleDetails : PlaceDetails :=
  { lat := 30, lng := -97, place_id := "place-1" }

/-- The URL requested for `sampleRecord` when the API key is `"K"`. -/
def sampleUrl : String :=
  "https://maps.googleapis.com/maps/api/geocode/json?address=Austin&components=country:us&key=K"

/-- Two source records, the second without a country; the geocoding service rejects
the first request it receives and answers every later one; the store never fails. -/
def retryEnv : Env where
  connectFails := false
  source := [sampleRecord, recordWithoutCountry]
  findFails := fun _ => false
  insertFails := fun _ => false
  geocode := fun hist _ => if hist.length = 0 then .rejected else sampleResponse
  apiKey := "K"
  toLowerCase := asciiToLowerCase

/-- One source record, a geocoding service that always answers, a store that never fails. -/
def oneRecordEnv : Env where
  connectFails := false
  source := [sampleRecord]
  findFails := fun _ => false
  insertFails := fun _ => false
  geocode := fun _ _ => sampleResponse
  apiKey := "K"
  toLowerCase := asciiToLowerCase

/-- One source record without a country; the store never fails. -/
def noCountryEnv : Env where
  connectFails := false
  source := [recordWithoutCountry]
  findFails := fun _ => false
  insertFails := fun _ => false
  geocode := fun _ _ => sampleResponse
  apiKey := "K"
  toLowerCase := asciiToLowerCase

/-- As `oneRecordEnv`, with a target collection that rejects every `insertMany`. -/
def insertFailsEnv : Env where
  connectFails := false
  source := [sampleRecord]
  findFails := fun _ => false
  insertFails := fun _ => true
  geocode := fun _ _ => sampleResponse
  apiKey := "K"
  toLowerCase := asciiToLowerCase

/-- As `oneRecordEnv`, with a source collection that rejects every page read. -/
def findFailsEnv : Env where
  connectFails := false
  source := [sampleRecord]
  findFails := fun _ => true
  insertFails := fun _ => false
  geocode := fun _ _ => sampleResponse
  apiKey := "K"
  toLowerCase := asciiToLowerCase

/-- As `oneRecordEnv`, with a store to which no connection can be made. -/
def connectFailsEnv : Env where
  connectFails := true
  source := [sampleRecord]
  findFails := fun _ => false
  insertFails := fun _ => false
  geocode := fun _ _ => sampleResponse
  apiKey := "K"
  toLowerCase := asciiToLowerCase

/-- A source of 120 records, none of which can be geocoded; the store never fails. -/
def hundredTwentyEnv : Env where
  connectFails := false
  source := List.replicate 120 recordWithoutCountry
  findFails := fun _ => false
  insertFails := fun _ => false
  geocode := fun _ _ => sampleResponse
  apiKey := "K"
  toLowerCase := asciiToLowerCase

/-- The state in which the run on `oneRecordEnv` ends. -/
def oneRecordFinalState : State :=
  { skip := 50, batch := 50, count := 2, hasNext := false,
    trace := [.connect true, .find 0 50 (some 1), .request sampleUrl,
      .insertMany [toTargetRecord sampleRecord sampleDetails] true, .find 50 50 (some 0)] }

/-! # Properties -/

/-! ## The retry loop -/

/-- The retry loop unfolded for the three values of `attempt`. -/
theorem retryLoop_three (env : Env) (url : String) (hist : List String) :
    retryLoop env url hist maxRetries 1 [] =
      match attemptOutcome env url hist 0 with
      | .ok d => (.ok (some d), [url])
      | .error _ =>
        match attemptOutcome env url hist 1 with
        | .ok d => (.ok (some d), [url, url])
        | .error _ =>
          match attemptOutcome env url hist 2 with
          | .ok d => (.ok (some d), [url, url, url])
          | .error e => (.error e, [url, url, url]) := by
  simp only [maxRetries, retryLoop, attemptOutcome, List.replicate, List.append_nil,
    List.nil_append]
  cases attemptBody (env.geocode hist url) with
  | ok d => rfl
  | error e =>
    simp only [List.cons_append, List.nil_append]
    cases attemptBody (env.geocode (hist ++ [url]) url) with
    | ok d => simp
    | error e =>
      simp only [List.cons_append, List.nil_append]
      cases attemptBody (env.geocode (hist ++ [url, url]) url) with
      | ok d => simp
      | error e => simp

theorem getPlaceDetails_eq (env : Env) (data : SourceRecord) (country : String)
    (hist : List String) (hcountry : data.country = some country) :
    getPlaceDetails env data hist =
      retryLoop env (apiUrl env data.city country) hist maxRetries 1 [] := by
  simp [getPlaceDetails, hcountry]

/-- The function `getPlaceDetails` never returns `undefined`. -/
theorem getPlaceDetails_ne_undefined (env : Env) (data : SourceRecord) (hist : List String) :
    (getPlaceDetails env data hist).1 ≠ .ok none := by
  unfold getPlaceDetails
  cases data.country with
  | none => simp
  | some country =>
    simp only [retryLoop_three]
    cases attemptOutcome env (apiUrl env data.city country) hist 0 <;> simp
    cases attemptOutcome env (apiUrl env data.city country) hist 1 <;> simp
    cases attemptOutcome env (apiUrl env data.city country) hist 2 <;> simp

/-- Claim C6. For a record with a country string, `getPlaceDetails` makes one
request per attempt, all to the same URL. If attempt `j + 1 ≤ 3` is the first to
succeed it makes exactly `j + 1` requests and returns the place details read from
the first result of that answer; if the first three attempts all fail it makes
exactly 3 requests and throws the error of the third, and it throws in no other
case; it never makes more than 3 requests. An attempt fails when `fetch` rejects,
on a non-ok status, and on missing or empty `results`; on a first result with a
location it yields that result's `lat`, `lng` and `place_id`. -/
theorem getPlaceDetails_bounded_retry (env : Env) (data : SourceRecord) (country : String)
    (hist : List String) (hcountry : data.country = some country) :
    (∀ j details, j < 3 →
        (∀ i, i < j → ∃ e, attemptOutcome env (apiUrl env data.city country) hist i = .error e) →
        attemptOutcome env (apiUrl env data.city country) hist j = .ok details →
        getPlaceDetails env data hist =
          (.ok (some details), List.replicate (j + 1) (apiUrl env data.city country))) ∧
    ((∀ i, i < 3 → ∃ e, attemptOutcome env (apiUrl env data.city country) hist i = .error e) →
        ∃ e, attemptOutcome env (apiUrl env data.city country) hist 2 = .error e ∧
          getPlaceDetails env data hist =
            (.error e, List.replicate 3 (apiUrl env data.city country))) ∧
    ((∃ e, (getPlaceDetails env data hist).1 = .error e) ↔
        ∀ i, i < 3 → ∃ e, attemptOutcome env (apiUrl env data.city country) hist i = .error e) ∧
    (getPlaceDetails env data hist).2.length ≤ 3 ∧
    attemptBody .rejected = .error .fetchRejected ∧
    (∀ status body, attemptBody (.response false status body) = .error (.httpError status)) ∧
    (∀ status, attemptBody (.response true status (.json none)) = .error .noResults) ∧
    (∀ status, attemptBody (.response true status (.json (some []))) = .error .noResults) ∧
    (∀ status loc place_id rest,
      attemptBody (.response true status
          (.json (some ({ location := some loc, place_id := place_id } :: rest)))) =
        .ok { lat := loc.lat, lng := loc.lng, place_id := place_id }) := by
  refine ⟨?_, ?_, ?_, ?_, rfl, fun _ _ => rfl, fun _ => rfl, fun _ => rfl,
    fun _ _ _ _ => rfl⟩ <;>
    rw [getPlaceDetails_eq env data country hist hcountry, retryLoop_three] <;>
    generalize apiUrl env data.city country = url
  · intro j details hj hfail hok
    interval_cases j
    · simp [hok]
    · obtain ⟨e0, he0⟩ := hfail 0 (by omega)
      simp [he0, hok]
    · obtain ⟨e0, he0⟩ := hfail 0 (by omega)
      obtain ⟨e1, he1⟩ := hfail 1 (by omega)
      simp [he0, he1, hok, List.replicate]
  · intro hfail
    obtain ⟨e0, he0⟩ := hfail 0 (by omega)
    obtain ⟨e1, he1⟩ := hfail 1 (by omega)
    obtain ⟨e2, he2⟩ := hfail 2 (by omega)
    exact ⟨e2, he2, by simp [he0, he1, he2, List.replicate]⟩
  · have h3 : ∀ P : Nat → Prop, (∀ i, i < 3 → P i) ↔ (P 0 ∧ P 1 ∧ P 2) := by
      intro P
      constructor
      · intro h
        exact ⟨h 0 (by omega), h 1 (by omega), h 2 (by omega)⟩
      · rintro ⟨h0, h1, h2⟩ i hi
        interval_cases i <;> assumption
    rw [h3]
    cases attemptOutcome env url hist 0 <;> simp
    cases attemptOutcome env url hist 1 <;> simp
    cases attemptOutcome env url hist 2 <;> simp
  · cases attemptOutcome env url hist 0 <;> simp
    cases attemptOutcome env url hist 1 <;> simp
    cases attemptOutcome env url hist 2 <;> simp

/-- Claim C6, on `retryEnv`: the first attempt for `sampleRecord` is rejected, the
second succeeds, and two requests are made. -/
theorem getPlaceDetails_bounded_retry_witness :
    sampleRecord.country = some "US" ∧
    apiUrl retryEnv sampleRecord.city "US" = sampleUrl ∧
    attemptOutcome retryEnv sampleUrl [] 0 = .error .fetchRejected ∧
    attemptOutcome retryEnv sampleUrl [] 1 = .ok sampleDetails ∧
    getPlaceDetails retryEnv sampleRecord [] =
      (.ok (some sampleDetails), List.replicate (1 + 1) (apiUrl retryEnv sampleRecord.city "US")) :=
  ⟨rfl, by decide, by decide, by decide,
    (getPlaceDetails_bounded_retry retryEnv sampleRecord "US" [] rfl).1 1 sampleDetails
      (by decide)
      (fun i hi => ⟨.fetchRejected, by
        have hi0 : i = 0 := by omega
        subst hi0
        decide⟩)
      (by decide)⟩

/-! ## Traces -/

@[simp]
theorem requestsOf_append (a b : List Event) :
    requestsOf (a ++ b) = requestsOf a ++ requestsOf b := by
  induction a with
  | nil => rfl
  | cons e a ih => cases e <;> simp [requestsOf, ih]

@[simp]
theorem findsOf_append (a b : List Event) :
    findsOf (a ++ b) = findsOf a ++ findsOf b := by
  induction a with
  | nil => rfl
  | cons e a ih => cases e <;> simp [findsOf, ih]

@[simp]
theorem insertsOf_append (a b : List Event) :
    insertsOf (a ++ b) = insertsOf a ++ insertsOf b := by
  induction a with
  | nil => rfl
  | cons e a ih => cases e <;> simp [insertsOf, ih]

@[simp]
theorem lifecycleOf_append (a b : List Event) :
    lifecycleOf (a ++ b) = lifecycleOf a ++ lifecycleOf b := by
  induction a with
  | nil => rfl
  | cons e a ih => cases e <;> simp [lifecycleOf, ih]

@[simp]
theorem requestsOf_map_request (urls : List String) :
    requestsOf (urls.map Event.request) = urls := by
  induction urls with
  | nil => rfl
  | cons u urls ih => simp [requestsOf, ih]

@[simp]
theorem findsOf_map_request (urls : List String) :
    findsOf (urls.map Event.request) = [] := by
  induction urls with
  | nil => rfl
  | cons u urls ih => simp [findsOf, ih]

@[simp]
theorem insertsOf_map_request (urls : List String) :
    insertsOf (urls.map Event.request) = [] := by
  induction urls with
  | nil => rfl
  | cons u urls ih => simp [insertsOf, ih]

@[simp]
theorem lifecycleOf_map_request (urls : List String) :
    lifecycleOf (urls.map Event.request) = [] := by
  induction urls with
  | nil => rfl
  | cons u urls ih => simp [lifecycleOf, ih]

@[simp]
theorem afterFailedInsert_map_request (urls : List String) :
    afterFailedInsert (urls.map Event.request) = none := by
  induction urls with
  | nil => rfl
  | cons u urls ih => simp [afterFailedInsert, ih]

theorem afterFailedInsert_append_of_none (a b : List Event)
    (h : afterFailedInsert a = none) :
    afterFailedInsert (a ++ b) = afterFailedInsert b := by
  induction a with
  | nil => rfl
  | cons e a ih =>
    cases e with
    | insertMany docs ok =>
      cases ok with
      | false => simp [afterFailedInsert] at h
      | true =>
        simp only [afterFailedInsert] at h
        simp [afterFailedInsert, ih h]
    | _ =>
      simp only [afterFailedInsert] at h
      simp [afterFailedInsert, ih h]

/-! ## Records of a page -/

theorem requestsFor_append (env : Env) (a b : List SourceRecord) (hist : List String) :
    requestsFor env (a ++ b) hist =
      requestsFor env a hist ++ requestsFor env b (hist ++ requestsFor env a hist) := by
  induction a generalizing hist with
  | nil => simp [requestsFor]
  | cons data a ih => simp [requestsFor, ih, List.append_assoc]

theorem enrichAll_append (env : Env) (a b : List SourceRecord) (hist : List String) :
    enrichAll env (a ++ b) hist =
      enrichAll env a hist ++ enrichAll env b (hist ++ requestsFor env a hist) := by
  induction a generalizing hist with
  | nil => simp [requestsFor, enrichAll]
  | cons data a ih =>
    simp only [List.cons_append, enrichAll, requestsFor]
    rcases hres : getPlaceDetails env data hist with ⟨res, sent⟩
    rcases res with e | (_ | details) <;> simp [ih, List.append_assoc]

theorem enrichAll_length_le (env : Env) (l : List SourceRecord) (hist : List String) :
    (enrichAll env l hist).length ≤ l.length := by
  induction l generalizing hist with
  | nil => simp [enrichAll]
  | cons data l ih =>
    simp only [enrichAll]
    rcases hres : getPlaceDetails env data hist with ⟨res, sent⟩
    rcases res with e | (_ | details)
    · simpa using Nat.le_succ_of_le (ih _)
    · simpa using Nat.le_succ_of_le (ih _)
    · simpa using ih _

/-- The loop over a page in closed form. -/
theorem processPage_eq (env : Env) (page : List SourceRecord) (recordList : List TargetRecord)
    (st : State) :
    processPage env page recordList st =
      (recordList ++ enrichAll env page (requestsOf st.trace),
        { st with
          count := st.count + (enrichAll env page (requestsOf st.trace)).length
          trace := st.trace ++ (requestsFor env page (requestsOf st.trace)).map Event.request }) := by
  induction page generalizing recordList st with
  | nil => simp [processPage, enrichAll, requestsFor]
  | cons data page ih =>
    simp only [processPage, enrichAll, requestsFor]
    have hne := getPlaceDetails_ne_undefined env data (requestsOf st.trace)
    rcases hres : getPlaceDetails env data (requestsOf st.trace) with ⟨res, sent⟩
    rw [hres] at hne
    rcases res with e | (_ | details)
    · simp [ih, List.append_assoc]
    · exact absurd rfl hne
    · simp [ih, List.append_assoc, Nat.add_assoc, Nat.add_comm 1]


/-! ## One pass through the loop body -/

/-- The body of the loop in closed form. -/
theorem iteration_eq (env : Env) (st : State) :
    iteration env st =
      if env.findFails st.trace then
        .throw .storeError { st with trace := st.trace ++ [.find st.skip st.batch none] }
      else if fetchPage env.source st.skip st.batch = [] then
        .done { st with hasNext := false,
                        trace := st.trace ++ [.find st.skip st.batch (some 0)] }
      else if pageRecords env st = [] then
        .next { st with skip := st.skip + st.batch, trace := pageTrace env st }
      else if env.insertFails (pageTrace env st) then
        .throw .storeError
          { st with count := st.count + (pageRecords env st).length,
                    trace := pageTrace env st ++ [.insertMany (pageRecords env st) false] }
      else
        .next
          { st with skip := st.skip + st.batch,
                    count := st.count + (pageRecords env st).length,
                    trace := pageTrace env st ++ [.insertMany (pageRecords env st) true] } := by
  unfold iteration
  by_cases hfind : env.findFails st.trace = true
  · simp [hfind]
  · simp only [hfind, Bool.false_eq_true, if_false]
    by_cases hpage : fetchPage env.source st.skip st.batch = []
    · simp [hpage]
    · have hlen : (fetchPage env.source st.skip st.batch).length ≠ 0 := by
        simpa [List.length_eq_zero] using hpage
      simp only [hlen, hpage, if_false, processPage_eq, List.nil_append]
      by_cases hrec : pageRecords env st = []
      · have hrec' := hrec
        unfold pageRecords at hrec'
        simp [hrec, hrec', pageTrace, requestsOf_append, requestsOf]
      · have hrec' := hrec
        unfold pageRecords at hrec'
        have hpos : 0 < (enrichAll env (fetchPage env.source st.skip st.batch)
            (requestsOf st.trace)).length := List.length_pos.mpr hrec'
        simp only [requestsOf_append, requestsOf, List.append_nil, hrec, if_false]
        simp only [gt_iff_lt, hpos, if_true, uploadDataToTargetCollection]
        simp only [pageTrace, pageRecords, List.append_assoc, List.singleton_append]
        by_cases hins : env.insertFails (st.trace ++
            Event.find st.skip st.batch (some (fetchPage env.source st.skip st.batch).length) ::
              List.map Event.request
                (requestsFor env (fetchPage env.source st.skip st.batch) (requestsOf st.trace)))
            = true
        · simp [hins]
        · simp [hins]


/-! ## Pages -/

theorem fetchPage_pos (source : List SourceRecord) (skip n : Nat) (hn : 0 < n) :
    fetchPage source skip n = (source.drop skip).take n := by
  simp [fetchPage, Nat.pos_iff_ne_zero.mp hn]

theorem fetchPage_eq_nil_iff (source : List SourceRecord) (skip n : Nat) (hn : 0 < n) :
    fetchPage source skip n = [] ↔ source.length ≤ skip := by
  rw [fetchPage_pos source skip n hn, List.take_eq_nil_iff, List.drop_eq_nil_iff]
  constructor
  · rintro (h | h)
    · omega
    · exact h
  · intro h
    exact Or.inr h

theorem fetchPage_length_le (source : List SourceRecord) (skip n : Nat) (hn : 0 < n) :
    (fetchPage source skip n).length ≤ n := by
  rw [fetchPage_pos source skip n hn, List.length_take]
  exact Nat.min_le_left _ _

theorem take_succ_page (source : List SourceRecord) (k n : Nat) (hn : 0 < n) :
    source.take ((k + 1) * n) = source.take (k * n) ++ fetchPage source (k * n) n := by
  rw [fetchPage_pos source (k * n) n hn, Nat.succ_mul, List.take_add]

theorem pageTrace_requests (env : Env) (st : State) :
    requestsOf (pageTrace env st) =
      requestsOf st.trace ++
        requestsFor env (fetchPage env.source st.skip st.batch) (requestsOf st.trace) := by
  simp [pageTrace, requestsOf]

theorem pageTrace_finds (env : Env) (st : State) :
    findsOf (pageTrace env st) = findsOf st.trace ++ [(st.skip, st.batch)] := by
  simp [pageTrace, findsOf]

theorem pageTrace_inserts (env : Env) (st : State) :
    insertsOf (pageTrace env st) = insertsOf st.trace := by
  simp [pageTrace, insertsOf]

theorem pageTrace_lifecycle (env : Env) (st : State) :
    lifecycleOf (pageTrace env st) = lifecycleOf st.trace := by
  simp [pageTrace, lifecycleOf]

theorem pageTrace_afterFailedInsert (env : Env) (st : State)
    (h : afterFailedInsert st.trace = none) :
    afterFailedInsert (pageTrace env st) = none := by
  unfold pageTrace
  rw [List.append_assoc, afterFailedInsert_append_of_none _ _ h]
  simp [afterFailedInsert]

/-! ## The loop invariant -/

theorem loopInv_start (env : Env) (n : Nat) : LoopInv env n 0 (startState n) := by
  constructor <;>
    simp [startState, initialState, findsOf, requestsOf, insertsOf, requestsFor, enrichAll,
      afterFailedInsert, lifecycleOf]

theorem loopInv_pageRecords {env : Env} {n k : Nat} {st : State} (h : LoopInv env n k st) :
    pageRecords env st = pageBatch env n k := by
  simp [pageRecords, pageBatch, h.skip_eq, h.batch_eq, h.requests_eq]

theorem loopInv_take_succ {env : Env} {n k : Nat} {st : State} (hn : 0 < n)
    (h : LoopInv env n k st) :
    enrichAll env (env.source.take ((k + 1) * n)) [] =
      enrichAll env (env.source.take (k * n)) [] ++ pageRecords env st := by
  rw [take_succ_page env.source k n hn, enrichAll_append, loopInv_pageRecords h]
  simp [pageBatch]

theorem loopInv_requests_succ {env : Env} {n k : Nat} {st : State} (hn : 0 < n)
    (h : LoopInv env n k st) :
    requestsOf (pageTrace env st) = requestsFor env (env.source.take ((k + 1) * n)) [] := by
  rw [pageTrace_requests, take_succ_page env.source k n hn, requestsFor_append,
    h.requests_eq, h.skip_eq, h.batch_eq]
  simp

theorem loopInv_next {env : Env} {n k : Nat} {st st' : State} (hn : 0 < n)
    (h : LoopInv env n k st) (hstep : iteration env st = .next st') :
    LoopInv env n (k + 1) st' := by
  have hskip : st.skip + st.batch = (k + 1) * n := by
    rw [h.skip_eq, h.batch_eq, Nat.succ_mul]
  have hfinds : findsOf (pageTrace env st) = (List.range (k + 1)).map (fun i => (i * n, n)) := by
    rw [pageTrace_finds, h.finds_eq, List.range_succ, List.map_append, h.skip_eq, h.batch_eq]
    rfl
  rw [iteration_eq] at hstep
  split_ifs at hstep with hfind hpage hrec hins
  · have hlt : ∀ i, i < k + 1 → i * n < env.source.length := by
      intro i hi
      rcases Nat.lt_succ_iff_lt_or_eq.mp hi with hlt | heq
      · exact h.nonempty_before i hlt
      · have hpage' := hpage
        rw [h.skip_eq, h.batch_eq, fetchPage_eq_nil_iff _ _ _ hn] at hpage'
        rw [heq]
        omega
    cases hstep
    have hbatch : pageBatch env n k = [] := by rw [← loopInv_pageRecords h]; exact hrec
    constructor
    · exact h.batch_eq
    · exact h.hasNext_eq
    · exact hskip
    · exact hlt
    · exact hfinds
    · exact loopInv_requests_succ hn h
    · show insertsOf (pageTrace env st) = _
      rw [pageTrace_inserts, h.inserts_eq, List.range_succ, List.map_append, List.filter_append]
      simp [hbatch]
    · show (insertsOf (pageTrace env st)).flatten = _
      rw [pageTrace_inserts, h.written_eq, loopInv_take_succ hn h, hrec, List.append_nil]
    · show st.count = _
      rw [h.count_eq, loopInv_take_succ hn h, hrec, List.append_nil]
    · exact pageTrace_afterFailedInsert env st h.no_failed_insert
    · show lifecycleOf (pageTrace env st) = _
      rw [pageTrace_lifecycle, h.lifecycle_eq]
  · have hlt : ∀ i, i < k + 1 → i * n < env.source.length := by
      intro i hi
      rcases Nat.lt_succ_iff_lt_or_eq.mp hi with hlt | heq
      · exact h.nonempty_before i hlt
      · have hpage' := hpage
        rw [h.skip_eq, h.batch_eq, fetchPage_eq_nil_iff _ _ _ hn] at hpage'
        rw [heq]
        omega
    cases hstep
    have hbatch : pageBatch env n k = pageRecords env st := (loopInv_pageRecords h).symm
    have hne : (pageRecords env st).isEmpty = false := by
      cases hp : pageRecords env st with
      | nil => exact absurd hp hrec
      | cons a l => rfl
    constructor
    · exact h.batch_eq
    · exact h.hasNext_eq
    · exact hskip
    · exact hlt
    · show findsOf (pageTrace env st ++ _) = _
      rw [findsOf_append, hfinds]
      simp [findsOf]
    · show requestsOf (pageTrace env st ++ _) = _
      rw [requestsOf_append, loopInv_requests_succ hn h]
      simp [requestsOf]
    · show insertsOf (pageTrace env st ++ _) = _
      rw [insertsOf_append, pageTrace_inserts, h.inserts_eq, List.range_succ, List.map_append,
        List.filter_append]
      simp [hbatch, hne, insertsOf]
    · show (insertsOf (pageTrace env st ++ _)).flatten = _
      rw [insertsOf_append, pageTrace_inserts, List.flatten_append, h.written_eq,
        loopInv_take_succ hn h]
      simp [insertsOf]
    · show st.count + _ = _
      rw [h.count_eq, loopInv_take_succ hn h, List.length_append, Nat.add_assoc]
    · show afterFailedInsert (pageTrace env st ++ _) = none
      rw [afterFailedInsert_append_of_none _ _
        (pageTrace_afterFailedInsert env st h.no_failed_insert)]
      rfl
    · show lifecycleOf (pageTrace env st ++ _) = _
      rw [lifecycleOf_append, pageTrace_lifecycle, h.lifecycle_eq]
      rfl


/-! ## The loop -/

theorem batchSourceCollectionFetcher_eq (env : Env) (fuel : Nat) (st : State) :
    batchSourceCollectionFetcher env fuel st = whileLoop env fuel st := by
  unfold batchSourceCollectionFetcher
  split <;> simp_all

theorem iteration_next_facts (env : Env) (st st' : State) (hbatch : 0 < st.batch)
    (hstep : iteration env st = .next st') :
    st'.batch = st.batch ∧ st'.skip = st.skip + st.batch ∧ st.skip < env.source.length := by
  rw [iteration_eq] at hstep
  split_ifs at hstep with hfind hpage hrec hins
  · rw [fetchPage_eq_nil_iff _ _ _ hbatch] at hpage
    cases hstep
    exact ⟨rfl, rfl, by omega⟩
  · rw [fetchPage_eq_nil_iff _ _ _ hbatch] at hpage
    cases hstep
    exact ⟨rfl, rfl, by omega⟩

/-- With a positive page size the loop ends within `source.length - skip + 1` passes. -/
theorem whileLoop_terminates (env : Env) :
    ∀ (fuel : Nat) (st : State), 0 < st.batch → env.source.length - st.skip < fuel →
      ∃ r, whileLoop env fuel st = some r := by
  intro fuel
  induction fuel with
  | zero => intro st _ h; omega
  | succ fuel ih =>
    intro st hbatch hfuel
    unfold whileLoop
    by_cases hnext : st.hasNext = true
    · simp only [hnext, if_true]
      cases hstep : iteration env st with
      | done st' => exact ⟨_, rfl⟩
      | throw e st' => exact ⟨_, rfl⟩
      | next st' =>
        obtain ⟨hb, hs, hlt⟩ := iteration_next_facts env st st' hbatch hstep
        exact ih st' (by omega) (by omega)
    · simp [hnext]

/-- The result of the loop is produced by a last pass that starts in a state
satisfying the invariant. -/
theorem whileLoop_last (env : Env) (n : Nat) (hn : 0 < n) :
    ∀ (fuel k : Nat) (st : State) (res : Except JsError Unit) (st' : State),
      LoopInv env n k st → whileLoop env fuel st = some (res, st') →
      ∃ k' s, LoopInv env n k' s ∧
        ((res = .ok () ∧ iteration env s = .done st') ∨
          (∃ e, res = .error e ∧ iteration env s = .throw e st')) := by
  intro fuel
  induction fuel with
  | zero => intro k st res st' _ h; simp [whileLoop] at h
  | succ fuel ih =>
    intro k st res st' hinv hrun
    unfold whileLoop at hrun
    simp only [hinv.hasNext_eq, if_true] at hrun
    cases hstep : iteration env st with
    | done s1 =>
      rw [hstep] at hrun
      simp only [Option.some.injEq, Prod.mk.injEq] at hrun
      obtain ⟨hres, hst⟩ := hrun
      subst hst
      exact ⟨k, st, hinv, Or.inl ⟨hres.symm, hstep⟩⟩
    | throw e s1 =>
      rw [hstep] at hrun
      simp only [Option.some.injEq, Prod.mk.injEq] at hrun
      obtain ⟨hres, hst⟩ := hrun
      subst hst
      exact ⟨k, st, hinv, Or.inr ⟨e, hres.symm, hstep⟩⟩
    | next s1 =>
      rw [hstep] at hrun
      exact ih (k + 1) s1 res st' (loopInv_next hn hinv hstep) hrun

/-- How a run of the loop from `startState n` ends: with the `break` on an empty
page, with a rejected page read, or with a rejected `insertMany`. -/
theorem run_cases (env : Env) (n : Nat) (hn : 0 < n) (fuel : Nat)
    (res : Except JsError Unit) (st' : State)
    (hrun : whileLoop env fuel (startState n) = some (res, st')) :
    ∃ k s, LoopInv env n k s ∧
      ((res = .ok () ∧ env.findFails s.trace = false ∧ env.source.length ≤ k * n ∧
          st' = { s with hasNext := false, trace := s.trace ++ [.find (k * n) n (some 0)] }) ∨
       (res = .error .storeError ∧ env.findFails s.trace = true ∧
          st' = { s with trace := s.trace ++ [.find (k * n) n none] }) ∨
       (res = .error .storeError ∧ env.findFails s.trace = false ∧
          k * n < env.source.length ∧ pageRecords env s ≠ [] ∧
          env.insertFails (pageTrace env s) = true ∧
          st' = { s with count := s.count + (pageRecords env s).length,
                         trace := pageTrace env s ++ [.insertMany (pageRecords env s) false] })) := by
  obtain ⟨k, s, hinv, hlast⟩ :=
    whileLoop_last env n hn fuel 0 (startState n) res st' (loopInv_start env n) hrun
  refine ⟨k, s, hinv, ?_⟩
  have hpage : fetchPage env.source s.skip s.batch = [] ↔ env.source.length ≤ k * n := by
    rw [hinv.skip_eq, hinv.batch_eq, fetchPage_eq_nil_iff _ _ _ hn]
  rcases hlast with ⟨hres, hstep⟩ | ⟨e, hres, hstep⟩
  · rw [iteration_eq] at hstep
    split_ifs at hstep with hfind hp hrec hins
    cases hstep
    refine Or.inl ⟨hres, by simpa using hfind, hpage.mp hp, ?_⟩
    rw [hinv.skip_eq, hinv.batch_eq]
  · rw [iteration_eq] at hstep
    split_ifs at hstep with hfind hp hrec hins
    · cases hstep
      refine Or.inr (Or.inl ⟨hres, hfind, ?_⟩)
      rw [hinv.skip_eq, hinv.batch_eq]
    · cases hstep
      refine Or.inr (Or.inr ⟨hres, by simpa using hfind, ?_, hrec, hins, rfl⟩)
      have := mt hpage.mpr hp
      omega


/-! ## Runs from the initial state -/

theorem startState_fifty : startState 50 = initialState := rfl

/-- From `startState n` with a positive page size and enough fuel the loop returns. -/
theorem run_total (env : Env) (n fuel : Nat) (hn : 0 < n) (hfuel : env.source.length < fuel) :
    ∃ res st', whileLoop env fuel (startState n) = some (res, st') := by
  obtain ⟨⟨res, st'⟩, h⟩ := whileLoop_terminates env fuel (startState n) hn
    (by simp only [startState, initialState]; omega)
  exact ⟨res, st', h⟩

/-- When no store call fails the loop ends with the `break` on an empty page. -/
theorem run_ok (env : Env) (n fuel : Nat) (hn : 0 < n)
    (hfind : ∀ t, env.findFails t = false) (hins : ∀ t, env.insertFails t = false)
    (hfuel : env.source.length < fuel) :
    ∃ k s, LoopInv env n k s ∧ env.source.length ≤ k * n ∧
      whileLoop env fuel (startState n) =
        some (.ok (), { s with hasNext := false,
                               trace := s.trace ++ [.find (k * n) n (some 0)] }) := by
  obtain ⟨res, st', hrun⟩ := run_total env n fuel hn hfuel
  obtain ⟨k, s, hinv, hcase⟩ := run_cases env n hn fuel res st' hrun
  rcases hcase with ⟨hres, _, hle, hst⟩ | ⟨_, hf, _⟩ | ⟨_, _, _, _, hi, _⟩
  · subst hres hst
    exact ⟨k, s, hinv, hle, hrun⟩
  · rw [hfind] at hf
    exact absurd hf (by simp)
  · rw [hins] at hi
    exact absurd hi (by simp)

/-- The loop builds for every kept record the record the specification asks for. -/
theorem enrichAll_eq_spec (env : Env) (l : List SourceRecord) (hist : List String) :
    enrichAll env l hist = specWrittenRecords env l hist := by
  induction l generalizing hist with
  | nil => rfl
  | cons data l ih =>
    simp only [enrichAll, specWrittenRecords]
    rcases hres : getPlaceDetails env data hist with ⟨res, sent⟩
    rcases res with e | (_ | details)
    · exact ih _
    · exact ih _
    · show toTargetRecord data details :: _ = specTargetRecord data details :: _
      rw [ih]
      rfl

/-- Every record the specification expects comes from a source record for which
`getPlaceDetails` returned place details. -/
theorem mem_specWrittenRecords (env : Env) (l : List SourceRecord) (hist : List String)
    (t : TargetRecord) (ht : t ∈ specWrittenRecords env l hist) :
    ∃ data details h sent, data ∈ l ∧
      getPlaceDetails env data h = (.ok (some details), sent) ∧
      t = specTargetRecord data details := by
  induction l generalizing hist with
  | nil => simp [specWrittenRecords] at ht
  | cons data l ih =>
    simp only [specWrittenRecords] at ht
    rcases hres : getPlaceDetails env data hist with ⟨res, sent⟩
    rw [hres] at ht
    rcases res with e | (_ | details)
    · obtain ⟨d, g, h, s, hd, hg, heq⟩ := ih _ ht
      exact ⟨d, g, h, s, List.mem_cons_of_mem _ hd, hg, heq⟩
    · obtain ⟨d, g, h, s, hd, hg, heq⟩ := ih _ ht
      exact ⟨d, g, h, s, List.mem_cons_of_mem _ hd, hg, heq⟩
    · rcases List.mem_cons.mp ht with heq | hmem
      · exact ⟨data, details, hist, sent, List.mem_cons_self _ _, hres, heq⟩
      · obtain ⟨d, g, h, s, hd, hg, heq⟩ := ih _ hmem
        exact ⟨d, g, h, s, List.mem_cons_of_mem _ hd, hg, heq⟩

/-- Claim C1. When no store call fails, the batches handed to `insertMany`,
concatenated in call order, are exactly the records the specification expects:
the source records in source order for which `getPlaceDetails` succeeds, each
mapped with its geocode result to the target shape (city `<city>, <state>`, the
other source fields unchanged, the place identifier, a `Point` with coordinates
longitude, latitude). `getPlaceDetails` is called for every source record in
order; every written record has that shape for some source record that was
geocoded; and a record whose geocoding fails contributes nothing while the
records after it are still processed. -/
theorem written_records_eq_enriched_source (env : Env) (fuel : Nat)
    (hfind : ∀ t, env.findFails t = false) (hins : ∀ t, env.insertFails t = false)
    (hfuel : env.source.length < fuel) :
    ∃ st', batchSourceCollectionFetcher env fuel initialState = some (.ok (), st') ∧
      (insertsOf st'.trace).flatten = specWrittenRecords env env.source [] ∧
      requestsOf st'.trace = requestsFor env env.source [] ∧
      (∀ t, t ∈ (insertsOf st'.trace).flatten →
        ∃ data details hist sent, data ∈ env.source ∧
          getPlaceDetails env data hist = (.ok (some details), sent) ∧
          t.city = data.city ++ ", " ++ data.state ∧ t.state = data.state ∧
          t.zipcode = data.zipcode ∧ t.zone = data.zone ∧
          t.fa_station = data.fa_station ∧ t.country = data.country ∧
          t.place_id = details.place_id ∧
          t.location = { type := "Point", coordinates := [details.lng, details.lat] }) ∧
      (∀ pre data post e sent, env.source = pre ++ data :: post →
        getPlaceDetails env data (requestsFor env pre []) = (.error e, sent) →
        (insertsOf st'.trace).flatten =
          specWrittenRecords env pre [] ++
            specWrittenRecords env post (requestsFor env pre [] ++ sent)) := by
  obtain ⟨k, s, hinv, hle, hrun⟩ := run_ok env 50 fuel (by decide) hfind hins hfuel
  rw [startState_fifty] at hrun
  have htake : env.source.take (k * 50) = env.source := List.take_of_length_le hle
  have hwritten : (insertsOf (s.trace ++ [Event.find (k * 50) 50 (some 0)])).flatten =
      enrichAll env env.source [] := by
    rw [insertsOf_append, ← htake, ← hinv.written_eq]
    simp [insertsOf]
  refine ⟨_, by rw [batchSourceCollectionFetcher_eq]; exact hrun, ?_, ?_, ?_, ?_⟩
  · show (insertsOf (s.trace ++ _)).flatten = _
    rw [hwritten, enrichAll_eq_spec]
  · show requestsOf (s.trace ++ _) = _
    rw [requestsOf_append, hinv.requests_eq, htake]
    simp [requestsOf]
  · intro t ht
    have ht' : t ∈ (insertsOf (s.trace ++ [Event.find (k * 50) 50 (some 0)])).flatten := ht
    rw [hwritten, enrichAll_eq_spec] at ht'
    obtain ⟨data, details, hist, sent, hmem, hres, heq⟩ :=
      mem_specWrittenRecords env env.source [] t ht'
    subst heq
    exact ⟨data, details, hist, sent, hmem, hres, rfl, rfl, rfl, rfl, rfl, rfl, rfl, rfl⟩
  · intro pre data post e sent hsrc herr
    show (insertsOf (s.trace ++ _)).flatten = _
    rw [hwritten, hsrc, enrichAll_append, enrichAll_eq_spec, enrichAll_eq_spec]
    simp [specWrittenRecords, herr]

/-- Claim C1, on `retryEnv`: the first record is written after one retry, in the
target shape, and the record without a country is left out. -/
theorem written_records_eq_enriched_source_witness :
    (∀ t, retryEnv.findFails t = false) ∧ (∀ t, retryEnv.insertFails t = false) ∧
    retryEnv.source.length < 3 ∧
    specWrittenRecords retryEnv retryEnv.source [] =
      [{ city := "Austin, TX", state := "TX", zipcode := "78701", zone := "5",
         fa_station := "AUS", country := some "US", place_id := "place-1",
         location := { type := "Point", coordinates := [-97, 30] } }] ∧
    (batchSourceCollectionFetcher retryEnv 3 initialState).map
        (fun r => (r.1, insertsOf r.2.trace)) =
      some (.ok (),
        [[{ city := "Austin, TX", state := "TX", zipcode := "78701", zone := "5",
            fa_station := "AUS", country := some "US", place_id := "place-1",
            location := { type := "Point", coordinates := [-97, 30] } }]]) ∧
    ∃ st', batchSourceCollectionFetcher retryEnv 3 initialState = some (.ok (), st') ∧
      (insertsOf st'.trace).flatten = specWrittenRecords retryEnv retryEnv.source [] ∧
      requestsOf st'.trace = requestsFor retryEnv retryEnv.source [] ∧
      (∀ t, t ∈ (insertsOf st'.trace).flatten →
        ∃ data details hist sent, data ∈ retryEnv.source ∧
          getPlaceDetails retryEnv data hist = (.ok (some details), sent) ∧
          t.city = data.city ++ ", " ++ data.state ∧ t.state = data.state ∧
          t.zipcode = data.zipcode ∧ t.zone = data.zone ∧
          t.fa_station = data.fa_station ∧ t.country = data.country ∧
          t.place_id = details.place_id ∧
          t.location = { type := "Point", coordinates := [details.lng, details.lat] }) ∧
      (∀ pre data post e sent, retryEnv.source = pre ++ data :: post →
        getPlaceDetails retryEnv data (requestsFor retryEnv pre []) = (.error e, sent) →
        (insertsOf st'.trace).flatten =
          specWrittenRecords retryEnv pre [] ++
            specWrittenRecords retryEnv post (requestsFor retryEnv pre [] ++ sent)) :=
  ⟨fun _ => rfl, fun _ => rfl, by decide, by decide, by decide,
    written_records_eq_enriched_source retryEnv 3 (fun _ => rfl) (fun _ => rfl) (by decide)⟩


/-- The number of pages processed before the empty page is `⌈M / n⌉`. -/
theorem pages_before_empty (m n k : Nat) (hn : 0 < n) (hle : m ≤ k * n)
    (hlt : ∀ i, i < k → i * n < m) : k = (m + n - 1) / n := by
  apply Nat.le_antisymm
  · rw [Nat.le_div_iff_mul_le hn]
    cases k with
    | zero => simp
    | succ j =>
      have := hlt j (Nat.lt_succ_self j)
      rw [Nat.succ_mul]
      omega
  · apply Nat.le_of_lt_succ
    rw [Nat.div_lt_iff_lt_mul hn, Nat.succ_mul]
    omega

/-- Claim C2, as amended. For every page size `n > 0` and every source of `M`
records, a run in which no store call fails terminates, makes exactly
`⌈M / n⌉ + 1` page reads, and the last of them returns zero records. -/
theorem fetch_count_eq (env : Env) (n fuel : Nat) (hn : 0 < n)
    (hfind : ∀ t, env.findFails t = false) (hins : ∀ t, env.insertFails t = false)
    (hfuel : env.source.length < fuel) :
    ∃ st', batchSourceCollectionFetcher env fuel (startState n) = some (.ok (), st') ∧
      (findsOf st'.trace).length = (env.source.length + n - 1) / n + 1 ∧
      st'.trace.getLast? =
        some (.find ((env.source.length + n - 1) / n * n) n (some 0)) ∧
      st'.hasNext = false := by
  obtain ⟨k, s, hinv, hle, hrun⟩ := run_ok env n fuel hn hfind hins hfuel
  have hk := pages_before_empty env.source.length n k hn hle hinv.nonempty_before
  refine ⟨_, by rw [batchSourceCollectionFetcher_eq]; exact hrun, ?_, ?_, rfl⟩
  · show (findsOf (s.trace ++ _)).length = _
    rw [findsOf_append, hinv.finds_eq, ← hk]
    simp [findsOf]
  · show (s.trace ++ _).getLast? = _
    rw [← hk]
    simp

/-- Claim C2, as amended, on `retryEnv` with page size `1`: two records, three
page reads. -/
theorem fetch_count_eq_witness :
    0 < 1 ∧ (∀ t, retryEnv.findFails t = false) ∧ (∀ t, retryEnv.insertFails t = false) ∧
    retryEnv.source.length < 3 ∧
    ∃ st', batchSourceCollectionFetcher retryEnv 3 (startState 1) = some (.ok (), st') ∧
      (findsOf st'.trace).length = (retryEnv.source.length + 1 - 1) / 1 + 1 ∧
      st'.trace.getLast? =
        some (.find ((retryEnv.source.length + 1 - 1) / 1 * 1) 1 (some 0)) ∧
      st'.hasNext = false :=
  ⟨by decide, fun _ => rfl, fun _ => rfl, by decide,
    fetch_count_eq retryEnv 1 3 (by decide) (fun _ => rfl) (fun _ => rfl) (by decide)⟩

/-- Claim C2, as stated, fails: with one source record and page size 50 the run
reads two pages (at offsets 0 and 50), whereas `⌈(1 + 1) / 50⌉ = 1`. -/
theorem fetch_count_formula_counterexample :
    oneRecordEnv.source.length = 1 ∧
    (batchSourceCollectionFetcher oneRecordEnv 2 (startState 50)).map
        (fun r => (r.1, findsOf r.2.trace)) = some (.ok (), [(0, 50), (50, 50)]) ∧
    (oneRecordEnv.source.length + 1 + 50 - 1) / 50 = 1 ∧
    ¬ ∃ st', batchSourceCollectionFetcher oneRecordEnv 2 (startState 50) = some (.ok (), st') ∧
        (findsOf st'.trace).length = (oneRecordEnv.source.length + 1 + 50 - 1) / 50 := by
  refine ⟨by decide, by decide, by decide, ?_⟩
  rintro ⟨st', hrun, hlen⟩
  have hfinds : (batchSourceCollectionFetcher oneRecordEnv 2 (startState 50)).map
      (fun r => (findsOf r.2.trace).length) = some 2 := by decide
  rw [hrun] at hfinds
  simp only [Option.map_some', Option.some.injEq] at hfinds
  rw [hfinds] at hlen
  exact absurd hlen (by decide)

/-- Claim C3. Whatever the geocoding service and the store do, the page reads of a
run are issued at offsets `0, 50, 100, ...` in this order, each with limit 50, and
the offset at the end is 50 times the number of pages processed; a source of 120
records is read at offsets 0, 50, 100 and 150 and nowhere else. -/
theorem fetch_offsets (env : Env) (fuel : Nat) (hfuel : env.source.length < fuel) :
    ∃ res st', batchSourceCollectionFetcher env fuel initialState = some (res, st') ∧
      (∃ k, findsOf st'.trace = (List.range (k + 1)).map (fun i => (i * 50, 50)) ∧
        st'.skip = k * 50 ∧ st'.batch = 50) ∧
      ((∀ t, env.findFails t = false) → (∀ t, env.insertFails t = false) →
        env.source.length = 120 →
        res = .ok () ∧ findsOf st'.trace = [(0, 50), (50, 50), (100, 50), (150, 50)]) := by
  obtain ⟨res, st', hrun⟩ := run_total env 50 fuel (by decide) hfuel
  obtain ⟨k, s, hinv, hcase⟩ := run_cases env 50 (by decide) fuel res st' hrun
  rw [startState_fifty] at hrun
  refine ⟨res, st', by rw [batchSourceCollectionFetcher_eq]; exact hrun, ⟨k, ?_⟩, ?_⟩
  · rcases hcase with ⟨_, _, _, hst⟩ | ⟨_, _, hst⟩ | ⟨_, _, _, _, _, hst⟩
    · subst hst
      refine ⟨?_, hinv.skip_eq, hinv.batch_eq⟩
      show findsOf (s.trace ++ _) = _
      rw [findsOf_append, hinv.finds_eq, List.range_succ, List.map_append]
      rfl
    · subst hst
      refine ⟨?_, hinv.skip_eq, hinv.batch_eq⟩
      show findsOf (s.trace ++ _) = _
      rw [findsOf_append, hinv.finds_eq, List.range_succ, List.map_append]
      rfl
    · subst hst
      refine ⟨?_, hinv.skip_eq, hinv.batch_eq⟩
      show findsOf (pageTrace env s ++ _) = _
      rw [findsOf_append, pageTrace_finds, hinv.finds_eq, List.range_succ, List.map_append,
        hinv.skip_eq, hinv.batch_eq]
      simp [findsOf]
  · intro hfind hins hlen
    rcases hcase with ⟨hres, _, hle, hst⟩ | ⟨_, hf, _⟩ | ⟨_, _, _, _, hi, _⟩
    · subst hst
      refine ⟨hres, ?_⟩
      have hk := pages_before_empty env.source.length 50 k (by decide) hle hinv.nonempty_before
      rw [hlen] at hk
      have hk3 : k = 3 := by rw [hk]
      subst hk3
      show findsOf (s.trace ++ _) = _
      rw [findsOf_append, hinv.finds_eq]
      rfl
    · rw [hfind] at hf
      exact absurd hf (by simp)
    · rw [hins] at hi
      exact absurd hi (by simp)

/-- Claim C3, on a source of 120 records: the run ends normally after page reads at
offsets 0, 50, 100 and 150. -/
theorem fetch_offsets_witness :
    hundredTwentyEnv.source.length < 121 ∧
    ∃ res st', batchSourceCollectionFetcher hundredTwentyEnv 121 initialState = some (res, st') ∧
      res = .ok () ∧ findsOf st'.trace = [(0, 50), (50, 50), (100, 50), (150, 50)] := by
  refine ⟨by decide, ?_⟩
  obtain ⟨res, st', hrun, _, h120⟩ := fetch_offsets hundredTwentyEnv 121 (by decide)
  obtain ⟨hres, hfinds⟩ := h120 (fun _ => rfl) (fun _ => rfl) (by decide)
  exact ⟨res, st', hrun, hres, hfinds⟩


/-! ## The top level -/

theorem main_eq (env : Env) (fuel : Nat) (res : Except JsError Unit) (st' : State)
    (hconn : env.connectFails = false)
    (hrun : batchSourceCollectionFetcher env fuel initialState = some (res, st')) :
    main env fuel = some (st'.trace ++ [.close, .exit 0]) := by
  unfold main
  rw [hrun]
  cases res <;> simp [hconn]

/-- The trace of the loop at its end, in each of the three ways a run can end. -/
theorem run_afterFailedInsert (env : Env) (fuel : Nat) (res : Except JsError Unit)
    (st' : State) (hrun : whileLoop env fuel (startState 50) = some (res, st')) :
    (afterFailedInsert st'.trace = none ∧
      afterFailedInsert (st'.trace ++ [.close, .exit 0]) = none) ∨
    (res = .error .storeError ∧ afterFailedInsert st'.trace = some [] ∧
      afterFailedInsert (st'.trace ++ [.close, .exit 0]) = some [.close, .exit 0]) := by
  obtain ⟨k, s, hinv, hcase⟩ := run_cases env 50 (by decide) fuel res st' hrun
  rcases hcase with ⟨_, _, _, hst⟩ | ⟨_, _, hst⟩ | ⟨hres, _, _, _, _, hst⟩
  · subst hst
    left
    simp [List.append_assoc, afterFailedInsert_append_of_none _ _ hinv.no_failed_insert,
      afterFailedInsert]
  · subst hst
    left
    simp [List.append_assoc, afterFailedInsert_append_of_none _ _ hinv.no_failed_insert,
      afterFailedInsert]
  · subst hst
    right
    have hp := pageTrace_afterFailedInsert env s hinv.no_failed_insert
    simp [hres, List.append_assoc, afterFailedInsert_append_of_none _ _ hp, afterFailedInsert]

/-- Claim C4. In every run, whatever follows a rejected `insertMany` is the call of
`client.close()` and then `process.exit(0)`, and nothing else: no further page
read, geocoding request or write. The rejection is the last thing
`batchSourceCollectionFetcher` does, and it leaves that function as an error. -/
theorem insert_failure_ends_run (env : Env) (fuel : Nat)
    (hfuel : env.source.length < fuel) :
    ∃ trace, main env fuel = some trace ∧
      ∀ post, afterFailedInsert trace = some post →
        post = [.close, .exit 0] ∧
        ∃ st', batchSourceCollectionFetcher env fuel initialState =
            some (.error .storeError, st') ∧
          trace = st'.trace ++ [.close, .exit 0] ∧ afterFailedInsert st'.trace = some [] := by
  by_cases hconn : env.connectFails = true
  · refine ⟨[.connect false, .exit 1], by simp [main, hconn], ?_⟩
    intro post hpost
    simp [afterFailedInsert] at hpost
  · have hconn' : env.connectFails = false := by simpa using hconn
    obtain ⟨res, st', hrun⟩ := run_total env 50 fuel (by decide) hfuel
    have hdriver : batchSourceCollectionFetcher env fuel initialState = some (res, st') := by
      rw [batchSourceCollectionFetcher_eq, ← startState_fifty]; exact hrun
    refine ⟨_, main_eq env fuel res st' hconn' hdriver, ?_⟩
    intro post hpost
    rcases run_afterFailedInsert env fuel res st' hrun with ⟨_, hnone⟩ | ⟨hres, hlast, hsome⟩
    · rw [hnone] at hpost
      exact absurd hpost (by simp)
    · rw [hsome] at hpost
      subst hres
      exact ⟨(Option.some.inj hpost).symm, st', hdriver, rfl, hlast⟩

/-- Claim C4, on `insertFailsEnv`: the write of the first page is rejected, and
the run goes on with `close` and `exit 0` only. -/
theorem insert_failure_ends_run_witness :
    insertFailsEnv.source.length < 2 ∧
    main insertFailsEnv 2 =
      some [.connect true, .find 0 50 (some 1), .request sampleUrl,
        .insertMany [toTargetRecord sampleRecord sampleDetails] false, .close, .exit 0] ∧
    ∃ trace, main insertFailsEnv 2 = some trace ∧
      ∀ post, afterFailedInsert trace = some post →
        post = [.close, .exit 0] ∧
        ∃ st', batchSourceCollectionFetcher insertFailsEnv 2 initialState =
            some (.error .storeError, st') ∧
          trace = st'.trace ++ [.close, .exit 0] ∧ afterFailedInsert st'.trace = some [] :=
  ⟨by decide, by decide, insert_failure_ends_run insertFailsEnv 2 (by decide)⟩

/-- Claim C8. If the connection cannot be made the process exits with code 1 and
nothing else happens; otherwise `batchSourceCollectionFetcher` runs, and whether
it returns or throws, the trace goes on with `client.close()` and then
`process.exit(0)`, the only `close` and `exit` of the run. -/
theorem main_exit_codes (env : Env) (fuel : Nat) :
    (env.connectFails = true → main env fuel = some [.connect false, .exit 1]) ∧
    (env.connectFails = false → env.source.length < fuel →
      ∃ res st', batchSourceCollectionFetcher env fuel initialState = some (res, st') ∧
        main env fuel = some (st'.trace ++ [.close, .exit 0]) ∧
        lifecycleOf st'.trace = [.connect true] ∧
        lifecycleOf (st'.trace ++ [.close, .exit 0]) = [.connect true, .close, .exit 0]) := by
  constructor
  · intro hconn
    simp [main, hconn]
  · intro hconn hfuel
    obtain ⟨res, st', hrun⟩ := run_total env 50 fuel (by decide) hfuel
    have hdriver : batchSourceCollectionFetcher env fuel initialState = some (res, st') := by
      rw [batchSourceCollectionFetcher_eq, ← startState_fifty]; exact hrun
    have hlife : lifecycleOf st'.trace = [.connect true] := by
      obtain ⟨k, s, hinv, hcase⟩ := run_cases env 50 (by decide) fuel res st' hrun
      rcases hcase with ⟨_, _, _, hst⟩ | ⟨_, _, hst⟩ | ⟨_, _, _, _, _, hst⟩
      · subst hst
        simp [hinv.lifecycle_eq, lifecycleOf]
      · subst hst
        simp [hinv.lifecycle_eq, lifecycleOf]
      · subst hst
        simp [pageTrace_lifecycle, hinv.lifecycle_eq, lifecycleOf]
    refine ⟨res, st', hdriver, main_eq env fuel res st' hconn hdriver, hlife, ?_⟩
    rw [lifecycleOf_append, hlife]
    rfl

/-- Claim C8, on a store that cannot be reached and on `insertFailsEnv`, where
`batchSourceCollectionFetcher` throws. -/
theorem main_exit_codes_witness :
    connectFailsEnv.connectFails = true ∧
    main connectFailsEnv 0 = some [.connect false, .exit 1] ∧
    insertFailsEnv.connectFails = false ∧ insertFailsEnv.source.length < 2 ∧
    ∃ res st', batchSourceCollectionFetcher insertFailsEnv 2 initialState = some (res, st') ∧
      main insertFailsEnv 2 = some (st'.trace ++ [.close, .exit 0]) ∧
      lifecycleOf st'.trace = [.connect true] ∧
      lifecycleOf (st'.trace ++ [.close, .exit 0]) = [.connect true, .close, .exit 0] :=
  ⟨rfl, (main_exit_codes connectFailsEnv 0).1 rfl, rfl, by decide,
    (main_exit_codes insertFailsEnv 2).2 rfl (by decide)⟩


/-! ## Counting and batching -/

/-- Claim C7, as amended. When a run reaches the `break` on an empty page, `hasNext`
is false and `count` is one more than the number of records processed, which is
the number of records written and the number of source records for which
`getPlaceDetails` returned place details. -/
theorem final_count_eq (env : Env) (fuel : Nat) (st' : State)
    (hrun : batchSourceCollectionFetcher env fuel initialState = some (.ok (), st')) :
    st'.hasNext = false ∧
    st'.count = 1 + (enrichAll env env.source []).length ∧
    (insertsOf st'.trace).flatten = enrichAll env env.source [] ∧
    afterFailedInsert st'.trace = none := by
  rw [batchSourceCollectionFetcher_eq, ← startState_fifty] at hrun
  obtain ⟨k, s, hinv, hcase⟩ := run_cases env 50 (by decide) fuel _ st' hrun
  rcases hcase with ⟨_, _, hle, hst⟩ | ⟨hres, _, _⟩ | ⟨hres, _, _, _, _, _⟩
  · subst hst
    have htake : env.source.take (k * 50) = env.source := List.take_of_length_le hle
    refine ⟨rfl, ?_, ?_, ?_⟩
    · show s.count = _
      rw [hinv.count_eq, htake]
    · show (insertsOf (s.trace ++ _)).flatten = _
      rw [insertsOf_append, ← htake, ← hinv.written_eq]
      simp [insertsOf]
    · show afterFailedInsert (s.trace ++ _) = none
      rw [afterFailedInsert_append_of_none _ _ hinv.no_failed_insert]
      rfl
  · exact absurd hres (by simp)
  · exact absurd hres (by simp)

/-- Claim C7, as amended, on `oneRecordEnv`: one record processed, `count = 2`. -/
theorem final_count_eq_witness :
    batchSourceCollectionFetcher oneRecordEnv 2 initialState =
      some (.ok (), oneRecordFinalState) ∧
    oneRecordFinalState.count = 2 ∧
    oneRecordFinalState.hasNext = false ∧
    oneRecordFinalState.count = 1 + (enrichAll oneRecordEnv oneRecordEnv.source []).length ∧
    (insertsOf oneRecordFinalState.trace).flatten =
      enrichAll oneRecordEnv oneRecordEnv.source [] ∧
    afterFailedInsert oneRecordFinalState.trace = none :=
  ⟨by decide, rfl, final_count_eq oneRecordEnv 2 oneRecordFinalState (by decide)⟩

/-- Claim C7, as stated, fails: on `oneRecordEnv` the run reaches the `break` with
`count = 2` although a single record was processed and written. -/
theorem final_count_counterexample :
    (batchSourceCollectionFetcher oneRecordEnv 2 initialState).map
        (fun r => (r.1, r.2.hasNext, r.2.count, (insertsOf r.2.trace).flatten.length)) =
      some (.ok (), false, 2, 1) ∧
    (enrichAll oneRecordEnv oneRecordEnv.source []).length = 1 := by
  constructor <;> decide

theorem pageBatch_length_le (env : Env) (n i : Nat) (hn : 0 < n) :
    (pageBatch env n i).length ≤ n :=
  Nat.le_trans (enrichAll_length_le env _ _) (fetchPage_length_le env.source (i * n) n hn)

theorem mem_nonempty_pageBatches (env : Env) (n k : Nat) (hn : 0 < n) (b : List TargetRecord)
    (hb : b ∈ ((List.range k).map (pageBatch env n)).filter (fun b => !b.isEmpty)) :
    0 < b.length ∧ b.length ≤ n := by
  rw [List.mem_filter, List.mem_map] at hb
  obtain ⟨⟨i, _, hi⟩, hne⟩ := hb
  subst hi
  refine ⟨?_, pageBatch_length_le env n i hn⟩
  cases hp : pageBatch env n i with
  | nil => simp [hp] at hne
  | cons a l => simp

theorem nodup_offsets (n k : Nat) (hn : 0 < n) :
    ((List.range k).map (fun i => (i * n, n))).Nodup := by
  apply List.Nodup.map _ (List.nodup_range k)
  intro i j hij
  simp only [Prod.mk.injEq, and_true] at hij
  exact Nat.eq_of_mul_eq_mul_right hn hij

/-- Claim C9. In every run each batch handed to `insertMany` has between 1 and 50
records; the batches are, in order, the non-empty ones among the records obtained
from the pages processed, one write per page that yields a record and none for a
page that yields none; no offset is read twice; and a pass over a non-empty page
none of whose records is geocoded ends without a write and with the offset
advanced by the page size. -/
theorem write_batches (env : Env) (fuel : Nat) (hfuel : env.source.length < fuel) :
    ∃ res st', batchSourceCollectionFetcher env fuel initialState = some (res, st') ∧
      (∀ b, b ∈ insertsOf st'.trace → 0 < b.length ∧ b.length ≤ 50) ∧
      (∃ k, k ≤ (findsOf st'.trace).length ∧ (findsOf st'.trace).length ≤ k + 1 ∧
        insertsOf st'.trace =
          ((List.range k).map (pageBatch env 50)).filter (fun b => !b.isEmpty)) ∧
      (findsOf st'.trace).Nodup ∧
      (∀ st : State, env.findFails st.trace = false →
        fetchPage env.source st.skip st.batch ≠ [] → pageRecords env st = [] →
        iteration env st =
            .next { st with skip := st.skip + st.batch, trace := pageTrace env st } ∧
          insertsOf (pageTrace env st) = insertsOf st.trace) := by
  obtain ⟨res, st', hrun⟩ := run_total env 50 fuel (by decide) hfuel
  have hdriver : batchSourceCollectionFetcher env fuel initialState = some (res, st') := by
    rw [batchSourceCollectionFetcher_eq, ← startState_fifty]; exact hrun
  obtain ⟨k, s, hinv, hcase⟩ := run_cases env 50 (by decide) fuel res st' hrun
  have hpages : ∃ j, j ≤ (findsOf st'.trace).length ∧ (findsOf st'.trace).length ≤ j + 1 ∧
      insertsOf st'.trace =
        ((List.range j).map (pageBatch env 50)).filter (fun b => !b.isEmpty) ∧
      findsOf st'.trace = (List.range (k + 1)).map (fun i => (i * 50, 50)) := by
    rcases hcase with ⟨_, _, _, hst⟩ | ⟨_, _, hst⟩ | ⟨_, _, _, hrec, _, hst⟩
    · subst hst
      refine ⟨k, ?_, ?_, ?_, ?_⟩
      · simp [hinv.finds_eq, findsOf]
      · simp [hinv.finds_eq, findsOf]
      · simp [hinv.inserts_eq, insertsOf]
      · simp [hinv.finds_eq, findsOf, List.range_succ]
    · subst hst
      refine ⟨k, ?_, ?_, ?_, ?_⟩
      · simp [hinv.finds_eq, findsOf]
      · simp [hinv.finds_eq, findsOf]
      · simp [hinv.inserts_eq, insertsOf]
      · simp [hinv.finds_eq, findsOf, List.range_succ]
    · subst hst
      have hne : (pageRecords env s).isEmpty = false := by
        cases hp : pageRecords env s with
        | nil => exact absurd hp hrec
        | cons a l => rfl
      refine ⟨k + 1, ?_, ?_, ?_, ?_⟩
      · simp [pageTrace_finds, hinv.finds_eq, findsOf]
      · simp [pageTrace_finds, hinv.finds_eq, findsOf]
      · rw [insertsOf_append, pageTrace_inserts, hinv.inserts_eq, List.range_succ,
          List.map_append, List.filter_append]
        simp [← loopInv_pageRecords hinv, hne, insertsOf]
      · simp [pageTrace_finds, hinv.finds_eq, findsOf, List.range_succ, hinv.skip_eq,
          hinv.batch_eq]
  obtain ⟨j, hj1, hj2, hins, hfinds⟩ := hpages
  refine ⟨res, st', hdriver, ?_, ⟨j, hj1, hj2, hins⟩, ?_, ?_⟩
  · intro b hb
    rw [hins] at hb
    exact mem_nonempty_pageBatches env 50 j (by decide) b hb
  · rw [hfinds]
    exact nodup_offsets 50 (k + 1) (by decide)
  · intro st hfind hpage hrec
    refine ⟨?_, pageTrace_inserts env st⟩
    rw [iteration_eq]
    simp [hfind, hpage, hrec]

/-- Claim C9, on `noCountryEnv`: the only record of the first page cannot be
geocoded, nothing is written, and the next page is read at offset 50. -/
theorem write_batches_witness :
    noCountryEnv.source.length < 2 ∧
    batchSourceCollectionFetcher noCountryEnv 2 initialState =
      some (.ok (), { skip := 50, batch := 50, count := 1, hasNext := false,
                      trace := [.connect true, .find 0 50 (some 1), .find 50 50 (some 0)] }) ∧
    ∃ res st', batchSourceCollectionFetcher noCountryEnv 2 initialState = some (res, st') ∧
      (∀ b, b ∈ insertsOf st'.trace → 0 < b.length ∧ b.length ≤ 50) ∧
      (∃ k, k ≤ (findsOf st'.trace).length ∧ (findsOf st'.trace).length ≤ k + 1 ∧
        insertsOf st'.trace =
          ((List.range k).map (pageBatch noCountryEnv 50)).filter (fun b => !b.isEmpty)) ∧
      (findsOf st'.trace).Nodup ∧
      (∀ st : State, noCountryEnv.findFails st.trace = false →
        fetchPage noCountryEnv.source st.skip st.batch ≠ [] → pageRecords noCountryEnv st = [] →
        iteration noCountryEnv st =
            .next { st with skip := st.skip + st.batch, trace := pageTrace noCountryEnv st } ∧
          insertsOf (pageTrace noCountryEnv st) = insertsOf st.trace) :=
  ⟨by decide, by decide, write_batches noCountryEnv 2 (by decide)⟩


/-! ## Enrichment and per-record failures -/

/-- Claim C5. The target record built from a source record and place details has
the city composed as `city, state`, the other source fields unchanged, the place
identifier of the place details and a `Point` location with coordinates
`[lng, lat]`; it is the record the loop over a page appends to `recordList` when
`getPlaceDetails` returns these place details. -/
theorem toTargetRecord_fields (data : SourceRecord) (details : PlaceDetails) :
    (toTargetRecord data details).city = data.city ++ ", " ++ data.state ∧
    (toTargetRecord data details).state = data.state ∧
    (toTargetRecord data details).zipcode = data.zipcode ∧
    (toTargetRecord data details).zone = data.zone ∧
    (toTargetRecord data details).fa_station = data.fa_station ∧
    (toTargetRecord data details).country = data.country ∧
    (toTargetRecord data details).place_id = details.place_id ∧
    (toTargetRecord data details).location =
      { type := "Point", coordinates := [details.lng, details.lat] } ∧
    (∀ (env : Env) (rest : List SourceRecord) (recordList : List TargetRecord) (st : State)
        (sent : List String),
      getPlaceDetails env data (requestsOf st.trace) = (.ok (some details), sent) →
      processPage env (data :: rest) recordList st =
        processPage env rest (recordList ++ [toTargetRecord data details])
          { st with count := st.count + 1, trace := st.trace ++ sent.map Event.request }) := by
  refine ⟨rfl, rfl, rfl, rfl, rfl, rfl, rfl, rfl, ?_⟩
  intro env rest recordList st sent hres
  simp [processPage, hres]

/-- Claim C5, on `sampleRecord` and `sampleDetails`. -/
theorem toTargetRecord_fields_witness :
    toTargetRecord sampleRecord sampleDetails =
      { city := "Austin, TX", state := "TX", zipcode := "78701", zone := "5",
        fa_station := "AUS", country := some "US", place_id := "place-1",
        location := { type := "Point", coordinates := [-97, 30] } } ∧
    (toTargetRecord sampleRecord sampleDetails).city =
      sampleRecord.city ++ ", " ++ sampleRecord.state ∧
    processPage oneRecordEnv [sampleRecord] [] initialState =
      processPage oneRecordEnv [] ([] ++ [toTargetRecord sampleRecord sampleDetails])
        { initialState with count := initialState.count + 1,
                            trace := initialState.trace ++ [sampleUrl].map Event.request } :=
  ⟨by decide, (toTargetRecord_fields sampleRecord sampleDetails).1,
    (toTargetRecord_fields sampleRecord sampleDetails).2.2.2.2.2.2.2.2
      oneRecordEnv [] [] initialState [sampleUrl] (by decide)⟩

/-- Claim C10, as amended. A rejected page read leaves `batchSourceCollectionFetcher`
as an error at once. An error thrown by `getPlaceDetails` for a record, whatever it
is, is caught for that record: `recordList` and `count` stay as they are and the
loop goes on with the next record. A record without a country makes
`getPlaceDetails` throw a `TypeError` before any request, which is such an error. -/
theorem enrichment_errors_are_caught (env : Env) :
    (∀ (fuel : Nat) (st : State), st.hasNext = true → env.findFails st.trace = true →
      batchSourceCollectionFetcher env (fuel + 1) st =
        some (.error .storeError,
          { st with trace := st.trace ++ [.find st.skip st.batch none] })) ∧
    (∀ (data : SourceRecord) (rest : List SourceRecord) (recordList : List TargetRecord)
        (st : State) (e : JsError) (sent : List String),
      getPlaceDetails env data (requestsOf st.trace) = (.error e, sent) →
      processPage env (data :: rest) recordList st =
        processPage env rest recordList
          { st with trace := st.trace ++ sent.map Event.request }) ∧
    (∀ (data : SourceRecord) (hist : List String), data.country = none →
      getPlaceDetails env data hist = (.error .typeError, [])) := by
  refine ⟨?_, ?_, ?_⟩
  · intro fuel st hnext hfind
    rw [batchSourceCollectionFetcher_eq]
    simp [whileLoop, hnext, iteration_eq, hfind]
  · intro data rest recordList st e sent hres
    simp [processPage, hres]
  · intro data hist hcountry
    simp [getPlaceDetails, hcountry]

/-- Claim C10, as amended, on `findFailsEnv` and on a record without a country. -/
theorem enrichment_errors_are_caught_witness :
    batchSourceCollectionFetcher findFailsEnv 1 initialState =
      some (.error .storeError,
        { initialState with trace := initialState.trace ++ [.find 0 50 none] }) ∧
    processPage noCountryEnv [recordWithoutCountry, sampleRecord] [] initialState =
      processPage noCountryEnv [sampleRecord] []
        { initialState with trace := initialState.trace ++ [].map Event.request } ∧
    getPlaceDetails noCountryEnv recordWithoutCountry [] = (.error .typeError, []) :=
  ⟨(enrichment_errors_are_caught findFailsEnv).1 0 initialState rfl rfl,
    (enrichment_errors_are_caught noCountryEnv).2.1 recordWithoutCountry [sampleRecord] []
      initialState .typeError [] (by decide),
    (enrichment_errors_are_caught noCountryEnv).2.2 recordWithoutCountry [] rfl⟩

/-- Claim C10, as stated, fails: on `noCountryEnv` the `TypeError` raised for the
record without a country does not leave the pagination driver; the run goes on
to read the next page and ends normally. -/
theorem missing_country_counterexample :
    getPlaceDetails noCountryEnv recordWithoutCountry [] = (.error .typeError, []) ∧
    batchSourceCollectionFetcher noCountryEnv 2 initialState =
      some (.ok (), { skip := 50, batch := 50, count := 1, hasNext := false,
                      trace := [.connect true, .find 0 50 (some 1), .find 50 50 (some 0)] }) ∧
    main noCountryEnv 2 =
      some [.connect true, .find 0 50 (some 1), .find 50 50 (some 0), .close, .exit 0] := by
  refine ⟨by decide, by decide, by decide⟩


end GeoMigration
